import Mathlib

/-!
Shallow embedding of the cell-local task reconciliation core of the rep
repository: the task reaper (reaper/task_reaper.go, translated from the
source) and the task processor (modelled from the specification, since the
snapshot contains only the processor's test table, not its implementation),
together with theorems checking the specification claims against them.
-/

namespace CellRep

/-- Task lifecycle states of the store's task records (runtime-schema
models, as referenced by reaper/task_reaper.go and the test table):
Pending, Claimed (an intermediate between Pending and Running that the
store may expose; the reaper branches on it), Running, Completed,
Resolving. -/
inductive TaskState
  | Pending
  | Claimed
  | Running
  | Completed
  | Resolving
  deriving DecidableEq, Repr

/-- A store task record (spec section 3; fields as used by the reaper and
the test table: task_guid, cell_id, state, failed, failure_reason, result,
result_file). -/
structure Task where
  taskGuid : String
  cellID : String
  state : TaskState
  failed : Bool
  failureReason : String
  result : String
  resultFile : String
  deriving DecidableEq, Repr

/-- Executor container states (executor package, as used by the test
table): Reserved, Initializing, Created, Running, Completed. -/
inductive ContainerState
  | Reserved
  | Initializing
  | Created
  | Running
  | Completed
  deriving DecidableEq, Repr

/-- The executor's container run result, present when the container is
Completed: failed flag and failure reason. -/
structure RunResult where
  failed : Bool
  failureReason : String
  deriving DecidableEq, Repr

/-- An executor container as observed by the core: guid (equal to the task
guid for task containers), state, run result, and the result-file tag
(the value of tags[rep.ResultFileTag], the in-container path of the result
file). -/
structure Container where
  guid : String
  state : ContainerState
  runResult : RunResult
  resultFileTag : String
  deriving DecidableEq, Repr

/-- One observable store or delegate/executor call issued by the core.
The completeTask call records its cell argument as an Option String: the
spec's store operation (section 6.1) takes a cell_id parameter and the
spec-modelled processor passes (some localCell), while the reaper's store
client in this source snapshot (reaper/task_reaper.go line 72) takes no
cell-identifier argument at all, recorded as none.  The startTask call
also records the changed flag the store returned. -/
inductive Call
  | startTask (guid : String) (cellID : String) (changed : Bool)
  | completeTask (guid : String) (cellID : Option String) (failed : Bool)
      (failureReason : String) (result : String)
  | runContainer (guid : String)
  | stopContainer (guid : String)
  | deleteContainer (guid : String)
  | fetchResultFile (guid : String) (path : String)
  | getContainer (guid : String)
  deriving DecidableEq, Repr

/-- True exactly on runContainer calls. -/
def Call.isRunContainer : Call → Bool
  | .runContainer _ => true
  | _ => false

/-- True exactly on completeTask calls. -/
def Call.isCompleteTask : Call → Bool
  | .completeTask _ _ _ _ _ => true
  | _ => false

/-- True exactly on getContainer calls. -/
def Call.isGetContainer : Call → Bool
  | .getContainer _ => true
  | _ => false

/-- True exactly on the store-writing calls (startTask and completeTask). -/
def Call.isStoreWrite : Call → Bool
  | .startTask _ _ _ => true
  | .completeTask _ _ _ _ _ => true
  | _ => false

/-- Outcome of the delegate's fetch_container_result_file call. -/
inductive FetchResult
  | ok (text : String)
  | fetchErr (msg : String)
  deriving DecidableEq, Repr

/-- Responses of the container delegate during one process call: whether
run_container succeeds, and the outcome of fetch_container_result_file.
The delete_container return value is advisory and ignored by the
processor, so it is not modelled. -/
structure DelegateEnv where
  runSucceeds : Bool
  fetchResult : FetchResult
  deriving Repr

/-- Modelled from the spec: the store's start_task compare-and-set
(sections 5 and 6.1, missing from the source snapshot together with the
whole store implementation): it succeeds exactly when the task is Pending,
in which case the task becomes Running with cell_id set to the claiming
cell; otherwise it returns changed = false and leaves the task unchanged. -/
def startTaskCAS (cellID : String) (t : Task) : Bool × Task :=
  if t.state = .Pending then
    (true, { t with state := .Running, cellID := cellID })
  else
    (false, t)

/-- Modelled from the spec: the store's complete_task compare-and-set
(sections 5 and 6.1, missing from the source snapshot together with the
whole store implementation): it rejects when the task is already Completed
or Resolving, or when the task has an owner different from the calling
cell; otherwise it sets the task Completed with the given failed flag,
failure reason and result. -/
def completeTaskCAS (cellID : String) (failed : Bool) (reason res : String)
    (t : Task) : Bool × Task :=
  if t.state = .Completed ∨ t.state = .Resolving then
    (false, t)
  else if t.cellID ≠ "" ∧ t.cellID ≠ cellID then
    (false, t)
  else
    (true, { t with state := .Completed, failed := failed,
                    failureReason := reason, result := res })

/-- Modelled from the spec: the helper for the active-container rows of the
processor's decision table (section 4.2) once the task is Running (or in
the Claimed intermediate, which the spec's section 9 says to treat as
Running): noop when the task is owned by the local cell, delete the
container otherwise. -/
def activeOwned (localCell : String) (c : Container) (t : Task) :
    Option Task × List Call :=
  if t.cellID = localCell then
    (some t, [])
  else
    (some t, [.deleteContainer c.guid])

/-- Modelled from the spec: the Reserved/Initializing/Created/Running rows
of the processor's decision table (section 4.2; the processor
implementation is missing from the source snapshot, only its test table is
present).  shouldRun is true for Reserved and Initializing, where the
Pending row claims the task and then runs the container; for Created and
Running the Pending row only claims (the container is already past the run
call).  A Pending task is claimed via start_task; if the claim fails the
container is deleted; if run_container refuses, the task is completed with
reason "failed to run container".  Completed and Resolving tasks mean the
container is garbage and is deleted. -/
def processActive (shouldRun : Bool) (localCell : String) (env : DelegateEnv)
    (c : Container) (t : Task) : Option Task × List Call :=
  match t.state with
  | .Pending =>
    let claim := startTaskCAS localCell t
    if claim.1 then
      if shouldRun then
        if env.runSucceeds then
          (some claim.2, [.startTask c.guid localCell true, .runContainer c.guid])
        else
          let comp := completeTaskCAS localCell true "failed to run container" "" claim.2
          (some comp.2,
           [.startTask c.guid localCell true, .runContainer c.guid,
            .completeTask c.guid (some localCell) true "failed to run container" ""])
      else
        (some claim.2, [.startTask c.guid localCell true])
    else
      (some t, [.startTask c.guid localCell false, .deleteContainer c.guid])
  | .Running => activeOwned localCell c t
  | .Claimed => activeOwned localCell c t
  | .Completed => (some t, [.deleteContainer c.guid])
  | .Resolving => (some t, [.deleteContainer c.guid])

/-- Modelled from the spec: the Completed-container rows of the
processor's decision table for a locally owned Running (or Claimed) task
(section 4.2): if the container's run result failed, complete the task
with the run result's failure reason and delete the container, without
fetching the result file; otherwise fetch the result file at the
result-file tag's path, complete the task with the fetched text on
success or with reason "failed to fetch result" on fetch failure, and
delete the container in every branch. -/
def completedOwned (localCell : String) (env : DelegateEnv) (c : Container)
    (t : Task) : Option Task × List Call :=
  if t.cellID = localCell then
    if c.runResult.failed then
      let comp := completeTaskCAS localCell true c.runResult.failureReason "" t
      (some comp.2,
       [.completeTask c.guid (some localCell) true c.runResult.failureReason "",
        .deleteContainer c.guid])
    else
      match env.fetchResult with
      | .ok txt =>
        let comp := completeTaskCAS localCell false "" txt t
        (some comp.2,
         [.fetchResultFile c.guid c.resultFileTag,
          .completeTask c.guid (some localCell) false "" txt,
          .deleteContainer c.guid])
      | .fetchErr _ =>
        let comp := completeTaskCAS localCell true "failed to fetch result" "" t
        (some comp.2,
         [.fetchResultFile c.guid c.resultFileTag,
          .completeTask c.guid (some localCell) true "failed to fetch result" "",
          .deleteContainer c.guid])
  else
    (some t, [.deleteContainer c.guid])

/-- Modelled from the spec: the Completed-container rows of the
processor's decision table (section 4.2): a missing task means the
container is deleted (handled in process); a Pending task is an invariant
violation, completed with reason "invalid state transition" and the
container deleted; a Running (or Claimed) task is handled by
completedOwned; Completed and Resolving tasks just have the container
deleted. -/
def processCompleted (localCell : String) (env : DelegateEnv) (c : Container)
    (t : Task) : Option Task × List Call :=
  match t.state with
  | .Pending =>
    let comp := completeTaskCAS localCell true "invalid state transition" "" t
    (some comp.2,
     [.completeTask c.guid (some localCell) true "invalid state transition" "",
      .deleteContainer c.guid])
  | .Running => completedOwned localCell env c t
  | .Claimed => completedOwned localCell env c t
  | .Completed => (some t, [.deleteContainer c.guid])
  | .Resolving => (some t, [.deleteContainer c.guid])

/-- Modelled from the spec: the task processor's entry point process
(section 4.2; the implementation is missing from the source snapshot).
The store state is represented by the task record for the container's
guid (none when the task is missing), since the processor reads and
writes only that record.  It returns the resulting task record and the
ordered list of store and delegate calls it issued. -/
def process (localCell : String) (env : DelegateEnv) (c : Container)
    (topt : Option Task) : Option Task × List Call :=
  match topt with
  | none => (none, [.deleteContainer c.guid])
  | some t =>
    match c.state with
    | .Reserved => processActive true localCell env c t
    | .Initializing => processActive true localCell env c t
    | .Created => processActive false localCell env c t
    | .Running => processActive false localCell env c t
    | .Completed => processCompleted localCell env c t

/-- Result of the executor's GetContainer call as the reaper consumes it
(reaper/task_reaper.go lines 66 to 78): the container was found (the
reaper discards the container value), the distinguished
executor.ErrContainerNotFound error value, or any other error.  The
distinguished value is a separate constructor, so the reaper's comparison
against it is structural, never a string match. -/
inductive GetContainerResult
  | found
  | notFound
  | otherErr (msg : String)
  deriving DecidableEq, Repr

/-- The environment of one reaper tick: the executor's GetContainer
response per guid, an injected transport failure of the store's
CompleteTask per guid (none means the store call itself decides), and an
injected transport failure of GetAllTasksByCellID. -/
structure ReaperEnv where
  getContainer : String → GetContainerResult
  completeTaskErr : String → Option String
  tasksErr : Option String

/-- Modelled from the spec: the store's get_all_tasks_by_cell_id
(section 6.1, missing from the source snapshot): all task records whose
cell_id equals the given cell. -/
def getAllTasksByCellID (cid : String) (s : List Task) : List Task :=
  s.filter fun t => t.cellID = cid

/-- Modelled from the spec: the store's CompleteTask as invoked by the
reaper in this source snapshot (reaper/task_reaper.go line 72), which
passes no cell-identifier argument.  It errors when no task with the guid
exists or when that task is already Completed or Resolving; otherwise it
sets the record Completed with the given failed flag, failure reason and
result. -/
def bbsCompleteTask (guid : String) (failed : Bool) (reason res : String)
    (s : List Task) : Except String (List Task) :=
  match s.find? (fun u => u.taskGuid = guid) with
  | none => .error "task not found"
  | some t =>
    if t.state = .Completed ∨ t.state = .Resolving then
      .error "cannot complete task"
    else
      .ok (s.map fun u =>
        if u.taskGuid = guid then
          { u with state := .Completed, failed := failed,
                   failureReason := reason, result := res }
        else u)

/-- The calls the reaper's loop body issues for one task
(reaper/task_reaper.go lines 60 to 78): tasks not Claimed and not Running
are skipped before any executor query; otherwise GetContainer is called,
and exactly when it returns the distinguished not-found value,
CompleteTask(guid, failed = true, "task container no longer exists", "")
is called (with no cell-identifier argument).  The calls do not depend on
the store state, so they are defined separately from the store effect. -/
def reapCalls (env : ReaperEnv) (t : Task) : List Call :=
  if t.state = .Claimed ∨ t.state = .Running then
    match env.getContainer t.taskGuid with
    | .notFound =>
      [.getContainer t.taskGuid,
       .completeTask t.taskGuid none true "task container no longer exists" ""]
    | .otherErr _ => [.getContainer t.taskGuid]
    | .found => [.getContainer t.taskGuid]
  else []

/-- The store effect of the reaper's loop body for one task
(reaper/task_reaper.go lines 60 to 78): only in the Claimed-or-Running,
container-not-found case is CompleteTask applied; an injected store
transport failure, or a compare-and-set rejection by the store, is logged
by the source and leaves the store unchanged. -/
def reapStore (env : ReaperEnv) (t : Task) (s : List Task) : List Task :=
  if t.state = .Claimed ∨ t.state = .Running then
    match env.getContainer t.taskGuid with
    | .notFound =>
      match env.completeTaskErr t.taskGuid with
      | some _ => s
      | none =>
        match bbsCompleteTask t.taskGuid true "task container no longer exists" "" s with
        | .ok s' => s'
        | .error _ => s
    | .otherErr _ => s
    | .found => s
  else s

/-- The reaper's loop body for one task, combining the store effect and
the issued calls (reaper/task_reaper.go lines 60 to 78). -/
def reapTask (env : ReaperEnv) (t : Task) (s : List Task) :
    List Task × List Call :=
  (reapStore env t s, reapCalls env t)

/-- The reaper's iteration over the task list snapshot returned at tick
start (reaper/task_reaper.go lines 60 to 79), threading the store and
concatenating the issued calls in order. -/
def reapList (env : ReaperEnv) : List Task → List Task → List Task × List Call
  | [], s => (s, [])
  | t :: ts, s =>
    let rest := reapList env ts (reapStore env t s)
    (rest.1, reapCalls env t ++ rest.2)

/-- One reaper tick (reaper/task_reaper.go lines 50 to 81): fetch all
tasks for the local cell; on a store error, log and continue to the next
tick with no further calls; otherwise run the loop body over the returned
snapshot. -/
def reaperTick (env : ReaperEnv) (cid : String) (s : List Task) :
    List Task × List Call :=
  match env.tasksErr with
  | some _ => (s, [])
  | none => reapList env (getAllTasksByCellID cid s) s

/-- One event arriving at the reaper's select (reaper/task_reaper.go
lines 48 to 86): a timer tick carrying that tick's environment, or a
shutdown signal. -/
inductive ReaperEvent
  | tick (env : ReaperEnv)
  | signal

/-- True exactly on the shutdown signal event. -/
def ReaperEvent.isSignal : ReaperEvent → Bool
  | .signal => true
  | .tick _ => false

/-- The reaper's Run loop (reaper/task_reaper.go lines 43 to 87) over a
finite serialization of the events its select receives.  Each tick is
processed atomically, because the source consults the signal channel only
at the select, never inside an iteration.  The Bool records whether Run
returned (it returns nil exactly on a signal); false means the event list
was exhausted with the loop still running. -/
def reaperRun (cid : String) : List ReaperEvent → List Task →
    List Task × List Call × Bool
  | [], s => (s, [], false)
  | .tick env :: rest, s =>
    let tick := reaperTick env cid s
    let next := reaperRun cid rest tick.1
    (next.1, tick.2 ++ next.2.1, next.2.2)
  | .signal :: _, s => (s, [], true)

/-- Claim C1 (owner safety; the processor is modelled from the spec, its
implementation being absent from the source snapshot): for every container
whose store task exists with cell_id set and different from the local
cell, in any of the task states Running, Completed or Resolving and any
container state, the processor issues no store write to the task (no
start_task, no complete_task), leaves the task record unchanged, and
issues exactly one delete_container call, for that container's guid. -/
theorem owner_safety (localCell : String) (env : DelegateEnv) (c : Container)
    (t : Task) (_hcell : t.cellID ≠ "") (hother : t.cellID ≠ localCell)
    (hstate : t.state = .Running ∨ t.state = .Completed ∨ t.state = .Resolving) :
    process localCell env c (some t) = (some t, [.deleteContainer c.guid]) := by
  obtain ⟨g, cst, rr, rft⟩ := c
  rcases hstate with h | h | h <;> cases cst <;>
    simp [process, processActive, processCompleted, activeOwned,
          completedOwned, h, hother]

/-- Witness for owner_safety at a concrete input: local cell "a", a
Running container for guid "g5" whose task is Running on cell "w". -/
theorem owner_safety_witness :
    ((⟨"g5", "w", .Running, false, "", "", "rf"⟩ : Task)).cellID ≠ "" ∧
    ((⟨"g5", "w", .Running, false, "", "", "rf"⟩ : Task)).cellID ≠ "a" ∧
    process "a" ⟨true, .ok "r"⟩
        (⟨"g5", .Running, ⟨false, ""⟩, "rf"⟩ : Container)
        (some (⟨"g5", "w", .Running, false, "", "", "rf"⟩ : Task)) =
      (some (⟨"g5", "w", .Running, false, "", "", "rf"⟩ : Task),
       [.deleteContainer "g5"]) :=
  ⟨by decide, by decide,
   owner_safety "a" ⟨true, .ok "r"⟩ _ _ (by decide) (by decide) (Or.inl rfl)⟩

/-- Claim C3 (terminal completion; the processor is modelled from the
spec): for a container in executor state Completed whose task is Running
and owned by the local cell, process completes the task (so exactly one of
the failed flag and the result is populated: a failed completion carries a
failure reason and an empty result, a successful one carries the fetched
result and an empty failure reason) and deletes the container in every
branch; when the run result failed the task gets the run result's failure
reason and fetch_container_result_file is never called; when it succeeded
the result file at the result-file tag's path is fetched, a successful
fetch completes the task with the fetched text as result, and a failed
fetch completes the task with reason "failed to fetch result". -/
theorem terminal_completion (localCell : String) (env : DelegateEnv)
    (c : Container) (t : Task) (hc : c.state = .Completed)
    (ht : t.state = .Running) (hown : t.cellID = localCell) :
    (c.runResult.failed = true →
       process localCell env c (some t) =
         (some { t with state := .Completed, failed := true,
                        failureReason := c.runResult.failureReason, result := "" },
          [.completeTask c.guid (some localCell) true c.runResult.failureReason "",
           .deleteContainer c.guid]))
    ∧ (c.runResult.failed = false →
       (∀ txt, env.fetchResult = .ok txt →
          process localCell env c (some t) =
            (some { t with state := .Completed, failed := false,
                           failureReason := "", result := txt },
             [.fetchResultFile c.guid c.resultFileTag,
              .completeTask c.guid (some localCell) false "" txt,
              .deleteContainer c.guid]))
       ∧ (∀ m, env.fetchResult = .fetchErr m →
          process localCell env c (some t) =
            (some { t with state := .Completed, failed := true,
                           failureReason := "failed to fetch result", result := "" },
             [.fetchResultFile c.guid c.resultFileTag,
              .completeTask c.guid (some localCell) true "failed to fetch result" "",
              .deleteContainer c.guid]))) := by
  obtain ⟨g, cst, rr, rft⟩ := c
  subst hc
  refine ⟨fun hf => ?_, fun hf => ⟨fun txt htxt => ?_, fun m hm => ?_⟩⟩ <;>
    simp_all [process, processCompleted, completedOwned, completeTaskCAS, ht, hown]

/-- Witness for terminal_completion at a concrete input: a Completed
container for guid "g3" with a failed run result and reason "boom", and a
Running task on the local cell "a". -/
theorem terminal_completion_witness :
    (⟨"g3", .Completed, ⟨true, "boom"⟩, "rf"⟩ : Container).state = .Completed ∧
    (⟨"g3", "a", .Running, false, "", "", "rf"⟩ : Task).state = .Running ∧
    (⟨"g3", "a", .Running, false, "", "", "rf"⟩ : Task).cellID = "a" ∧
    process "a" ⟨true, .ok "r"⟩ (⟨"g3", .Completed, ⟨true, "boom"⟩, "rf"⟩ : Container)
        (some (⟨"g3", "a", .Running, false, "", "", "rf"⟩ : Task)) =
      (some (⟨"g3", "a", .Completed, true, "boom", "", "rf"⟩ : Task),
       [.completeTask "g3" (some "a") true "boom" "", .deleteContainer "g3"]) :=
  ⟨rfl, rfl, rfl,
   (terminal_completion "a" ⟨true, .ok "r"⟩ _ _ rfl rfl rfl).1 rfl⟩

/-- Claim C4 (claim atomicity and claim-then-run ordering; the processor
is modelled from the spec): for a Pending task seen with a Reserved
container, the start_task call is the first call the processor issues,
hence before any run_container call, and after process returns exactly one
of the following holds: the task is Running and run_container was called
exactly once; the delegate refused the run and the task is Completed with
failure reason "failed to run container"; or start_task returned
changed = false, no task mutation occurred and run_container was not
called. -/
theorem claim_then_run (localCell : String) (env : DelegateEnv) (c : Container)
    (t : Task) (hc : c.state = .Reserved) (ht : t.state = .Pending) :
    (process localCell env c (some t)).2.head? =
        some (.startTask c.guid localCell true)
    ∧ ((((∃ u, (process localCell env c (some t)).1 = some u ∧ u.state = .Running)
           ∧ (process localCell env c (some t)).2.countP Call.isRunContainer = 1)
        ∧ ¬(env.runSucceeds = false
            ∧ (∃ u, (process localCell env c (some t)).1 = some u
                ∧ u.state = .Completed
                ∧ u.failureReason = "failed to run container"))
        ∧ ¬(Call.startTask c.guid localCell false ∈ (process localCell env c (some t)).2
            ∧ (process localCell env c (some t)).1 = some t
            ∧ (process localCell env c (some t)).2.countP Call.isRunContainer = 0))
      ∨ ((env.runSucceeds = false
            ∧ (∃ u, (process localCell env c (some t)).1 = some u
                ∧ u.state = .Completed
                ∧ u.failureReason = "failed to run container"))
        ∧ ¬((∃ u, (process localCell env c (some t)).1 = some u ∧ u.state = .Running)
            ∧ (process localCell env c (some t)).2.countP Call.isRunContainer = 1)
        ∧ ¬(Call.startTask c.guid localCell false ∈ (process localCell env c (some t)).2
            ∧ (process localCell env c (some t)).1 = some t
            ∧ (process localCell env c (some t)).2.countP Call.isRunContainer = 0))
      ∨ ((Call.startTask c.guid localCell false ∈ (process localCell env c (some t)).2
            ∧ (process localCell env c (some t)).1 = some t
            ∧ (process localCell env c (some t)).2.countP Call.isRunContainer = 0)
        ∧ ¬((∃ u, (process localCell env c (some t)).1 = some u ∧ u.state = .Running)
            ∧ (process localCell env c (some t)).2.countP Call.isRunContainer = 1)
        ∧ ¬(env.runSucceeds = false
            ∧ (∃ u, (process localCell env c (some t)).1 = some u
                ∧ u.state = .Completed
                ∧ u.failureReason = "failed to run container")))) := by
  obtain ⟨g, cst, rr, rft⟩ := c
  subst hc
  cases hrs : env.runSucceeds <;>
    simp [process, processActive, startTaskCAS, completeTaskCAS, ht, hrs,
          Call.isRunContainer, List.countP_cons, List.countP_nil]

/-- Witness for claim_then_run at a concrete input: local cell "a", a
Reserved container for guid "g2" with a Pending unowned task, and a
delegate that accepts the run. -/
theorem claim_then_run_witness :
    (⟨"g2", .Reserved, ⟨false, ""⟩, "rf"⟩ : Container).state = .Reserved ∧
    (⟨"g2", "", .Pending, false, "", "", "rf"⟩ : Task).state = .Pending ∧
    ((process "a" ⟨true, .ok "r"⟩ (⟨"g2", .Reserved, ⟨false, ""⟩, "rf"⟩ : Container)
        (some (⟨"g2", "", .Pending, false, "", "", "rf"⟩ : Task))).2.head? =
      some (.startTask "g2" "a" true)) := by
  refine ⟨rfl, rfl, ?_⟩
  exact (claim_then_run "a" ⟨true, .ok "r"⟩ _ _ rfl rfl).1

/-- Claim C6 (Pending row past the run call; the processor is modelled
from the spec): for a container in state Created or Running whose task is
Pending, the processor claims the task via start_task, transitioning it to
Running, and does not call run_container; by contrast, for a Reserved or
Initializing container the Pending row does call run_container. -/
theorem pending_past_run (localCell : String) (env : DelegateEnv)
    (c : Container) (t : Task) (ht : t.state = .Pending) :
    ((c.state = .Created ∨ c.state = .Running) →
       process localCell env c (some t) =
         (some { t with state := .Running, cellID := localCell },
          [.startTask c.guid localCell true]))
    ∧ ((c.state = .Reserved ∨ c.state = .Initializing) →
       Call.runContainer c.guid ∈ (process localCell env c (some t)).2) := by
  obtain ⟨g, cst, rr, rft⟩ := c
  constructor
  · rintro (h | h) <;> subst h <;>
      simp [process, processActive, startTaskCAS, ht]
  · rintro (h | h) <;> subst h <;> cases hrs : env.runSucceeds <;>
      simp [process, processActive, startTaskCAS, completeTaskCAS, ht, hrs]

/-- Witness for pending_past_run at a concrete input: local cell "a", a
Created container for guid "g7" with a Pending unowned task. -/
theorem pending_past_run_witness :
    (⟨"g7", "", .Pending, false, "", "", "rf"⟩ : Task).state = .Pending ∧
    ((⟨"g7", .Created, ⟨false, ""⟩, "rf"⟩ : Container).state = .Created ∨
     (⟨"g7", .Created, ⟨false, ""⟩, "rf"⟩ : Container).state = .Running) ∧
    process "a" ⟨true, .ok "r"⟩ (⟨"g7", .Created, ⟨false, ""⟩, "rf"⟩ : Container)
        (some (⟨"g7", "", .Pending, false, "", "", "rf"⟩ : Task)) =
      (some (⟨"g7", "a", .Running, false, "", "", "rf"⟩ : Task),
       [.startTask "g7" "a" true]) := by
  refine ⟨rfl, Or.inl rfl, ?_⟩
  exact (pending_past_run "a" ⟨true, .ok "r"⟩ _ _ rfl).1 (Or.inl rfl)

/-- Claim C7 (idempotence of process; the processor is modelled from the
spec): invoking process a second time on the identical container, the
identical delegate environment and the store state left by the first
invocation leaves the store unchanged and issues no store write at all;
its only possible call is one redundant delete_container for the
container's guid (whose advisory false return the processor ignores, as
the delegate model records).  The container record itself is never
mutated by the processor, so the container side of the state is unchanged
by construction.  The hypothesis is the store's own data invariant
(spec section 3) that a Pending task has an empty cell_id. -/
theorem process_idempotent (localCell : String) (env : DelegateEnv)
    (c : Container) (topt : Option Task)
    (hinv : ∀ u, topt = some u → u.state = .Pending → u.cellID = "") :
    (process localCell env c (process localCell env c topt).1).1 =
        (process localCell env c topt).1
    ∧ ((process localCell env c (process localCell env c topt).1).2 = []
       ∨ (process localCell env c (process localCell env c topt).1).2 =
           [.deleteContainer c.guid]) := by
  cases topt with
  | none => simp [process]
  | some t =>
    obtain ⟨g, cst, rr, rrf⟩ := c
    obtain ⟨tg, tc, tst, tf, tfr, tres, trf⟩ := t
    have hpend : tst = .Pending → tc = "" := fun h => by
      simpa using hinv ⟨tg, tc, tst, tf, tfr, tres, trf⟩ rfl (by simpa using h)
    clear hinv
    cases cst <;> cases tst <;>
      first
      | (simp_all [process, processActive, processCompleted, activeOwned,
                   completedOwned, startTaskCAS, completeTaskCAS];
         done)
      | (by_cases hcl : tc = localCell <;>
         cases hrs : env.runSucceeds <;>
         rcases hfr : env.fetchResult with txt | m <;>
         cases hrrf : rr.failed <;>
         simp_all [process, processActive, processCompleted, activeOwned,
                   completedOwned, startTaskCAS, completeTaskCAS])

/-- Witness for process_idempotent at a concrete input: a Reserved
container for guid "g2" with a Pending unowned task; the first pass claims
and runs, the second pass is a noop. -/
theorem process_idempotent_witness :
    (process "a" ⟨true, .ok "r"⟩ (⟨"g2", .Reserved, ⟨false, ""⟩, "rf"⟩ : Container)
        (process "a" ⟨true, .ok "r"⟩ (⟨"g2", .Reserved, ⟨false, ""⟩, "rf"⟩ : Container)
          (some (⟨"g2", "", .Pending, false, "", "", "rf"⟩ : Task))).1).1 =
      (process "a" ⟨true, .ok "r"⟩ (⟨"g2", .Reserved, ⟨false, ""⟩, "rf"⟩ : Container)
        (some (⟨"g2", "", .Pending, false, "", "", "rf"⟩ : Task))).1
    ∧ ((process "a" ⟨true, .ok "r"⟩ (⟨"g2", .Reserved, ⟨false, ""⟩, "rf"⟩ : Container)
        (process "a" ⟨true, .ok "r"⟩ (⟨"g2", .Reserved, ⟨false, ""⟩, "rf"⟩ : Container)
          (some (⟨"g2", "", .Pending, false, "", "", "rf"⟩ : Task))).1).2 = []
       ∨ (process "a" ⟨true, .ok "r"⟩ (⟨"g2", .Reserved, ⟨false, ""⟩, "rf"⟩ : Container)
        (process "a" ⟨true, .ok "r"⟩ (⟨"g2", .Reserved, ⟨false, ""⟩, "rf"⟩ : Container)
          (some (⟨"g2", "", .Pending, false, "", "", "rf"⟩ : Task))).1).2 =
           [.deleteContainer "g2"]) :=
  process_idempotent "a" ⟨true, .ok "r"⟩ _ _
    (by intro u h hp; cases h; rfl)

theorem reapStore_cases (env : ReaperEnv) (v : Task) (s : List Task) :
    reapStore env v s = s ∨
    reapStore env v s = s.map fun u =>
      if u.taskGuid = v.taskGuid then
        { u with state := .Completed, failed := true,
                 failureReason := "task container no longer exists", result := "" }
      else u := by
  by_cases hst : v.state = .Claimed ∨ v.state = .Running
  · rcases hgc : env.getContainer v.taskGuid with _ | _ | m
    · exact Or.inl (by simp [reapStore, hst, hgc])
    · rcases hce : env.completeTaskErr v.taskGuid with _ | e
      · rcases hf : s.find? (fun u => u.taskGuid = v.taskGuid) with _ | w
        · exact Or.inl (by simp [reapStore, hst, hgc, hce, bbsCompleteTask, hf])
        · by_cases hdone : w.state = .Completed ∨ w.state = .Resolving
          · exact Or.inl (by simp [reapStore, hst, hgc, hce, bbsCompleteTask, hf, hdone])
          · exact Or.inr (by simp [reapStore, hst, hgc, hce, bbsCompleteTask, hf, hdone])
      · exact Or.inl (by simp [reapStore, hst, hgc, hce])
    · exact Or.inl (by simp [reapStore, hst, hgc])
  · exact Or.inl (by simp [reapStore, hst])

theorem reapStore_preserves_completed (env : ReaperEnv) (v : Task) (g : String)
    (s : List Task)
    (hP : ∀ u ∈ s, u.taskGuid = g → u.state = .Completed ∧ u.failed = true) :
    ∀ u ∈ reapStore env v s, u.taskGuid = g →
      u.state = .Completed ∧ u.failed = true := by
  rcases reapStore_cases env v s with h | h <;> rw [h]
  · exact hP
  · intro u hu hg
    rcases List.mem_map.mp hu with ⟨w, hw, rfl⟩
    by_cases hwg : w.taskGuid = v.taskGuid
    · simp [if_pos hwg]
    · have hg' : w.taskGuid = g := by simpa [if_neg hwg] using hg
      simpa [if_neg hwg] using hP w hw hg'

theorem reapStore_preserves_exists (env : ReaperEnv) (v : Task) (g : String)
    (s : List Task) (hE : ∃ u ∈ s, u.taskGuid = g) :
    ∃ u ∈ reapStore env v s, u.taskGuid = g := by
  rcases reapStore_cases env v s with h | h <;> rw [h]
  · exact hE
  · obtain ⟨u, hu, hg⟩ := hE
    refine ⟨_, List.mem_map_of_mem _ hu, ?_⟩
    by_cases hug : u.taskGuid = v.taskGuid
    · simpa [if_pos hug] using hg
    · simpa [if_neg hug] using hg

theorem reapStore_preI_step (env : ReaperEnv) (v : Task) (g : String)
    (s : List Task)
    (hI : ∀ u ∈ s, u.taskGuid = g → u.state = .Claimed ∨ u.state = .Running) :
    (∀ u ∈ reapStore env v s, u.taskGuid = g →
        u.state = .Claimed ∨ u.state = .Running)
    ∨ (∀ u ∈ reapStore env v s, u.taskGuid = g →
        u.state = .Completed ∧ u.failed = true) := by
  rcases reapStore_cases env v s with h | h <;> rw [h]
  · exact Or.inl hI
  · by_cases hvg : v.taskGuid = g
    · right
      intro u hu hg
      rcases List.mem_map.mp hu with ⟨w, hw, rfl⟩
      by_cases hwg : w.taskGuid = v.taskGuid
      · simp [if_pos hwg]
      · have hg' : w.taskGuid = g := by simpa [if_neg hwg] using hg
        exact absurd (hg'.trans hvg.symm) hwg
    · left
      intro u hu hg
      rcases List.mem_map.mp hu with ⟨w, hw, rfl⟩
      by_cases hwg : w.taskGuid = v.taskGuid
      · have hg' : w.taskGuid = g := by simpa [if_pos hwg] using hg
        exact absurd (hwg.symm.trans hg') hvg
      · have hg' : w.taskGuid = g := by simpa [if_neg hwg] using hg
        simpa [if_neg hwg] using hI w hw hg'

theorem reapStore_triggers (env : ReaperEnv) (v : Task) (s : List Task)
    (hst : v.state = .Claimed ∨ v.state = .Running)
    (hgc : env.getContainer v.taskGuid = .notFound)
    (hce : env.completeTaskErr v.taskGuid = none)
    (hI : ∀ u ∈ s, u.taskGuid = v.taskGuid →
        u.state = .Claimed ∨ u.state = .Running)
    (hE : ∃ u ∈ s, u.taskGuid = v.taskGuid) :
    ∀ u ∈ reapStore env v s, u.taskGuid = v.taskGuid →
      u.state = .Completed ∧ u.failed = true := by
  obtain ⟨u₀, hu₀, hg₀⟩ := hE
  rcases hf : s.find? (fun u => u.taskGuid = v.taskGuid) with _ | w
  · have := List.find?_eq_none.mp hf u₀ hu₀
    simp [hg₀] at this
  · have hw : w.taskGuid = v.taskGuid := by simpa using List.find?_some hf
    have hwmem : w ∈ s := List.mem_of_find?_eq_some hf
    have hwdone : ¬(w.state = .Completed ∨ w.state = .Resolving) := by
      rcases hI w hwmem hw with h | h <;> simp [h]
    have hrs : reapStore env v s = s.map fun u =>
        if u.taskGuid = v.taskGuid then
          { u with state := .Completed, failed := true,
                   failureReason := "task container no longer exists", result := "" }
        else u := by
      simp [reapStore, hst, hgc, hce, bbsCompleteTask, hf, hwdone]
    rw [hrs]
    intro u hu hg
    rcases List.mem_map.mp hu with ⟨x, hx, rfl⟩
    by_cases hxg : x.taskGuid = v.taskGuid
    · simp [if_pos hxg]
    · have hg' : x.taskGuid = v.taskGuid := by simpa [if_neg hxg] using hg
      exact absurd hg' hxg

theorem reapList_preserves_completed (env : ReaperEnv) (g : String) :
    ∀ (l s : List Task),
    (∀ u ∈ s, u.taskGuid = g → u.state = .Completed ∧ u.failed = true) →
    ∀ u ∈ (reapList env l s).1, u.taskGuid = g →
      u.state = .Completed ∧ u.failed = true := by
  intro l
  induction l with
  | nil => intro s h; simpa [reapList] using h
  | cons v vs ih =>
    intro s h
    simpa [reapList] using
      ih (reapStore env v s) (reapStore_preserves_completed env v g s h)

theorem reapList_completes (env : ReaperEnv) (t : Task) :
    ∀ (l s : List Task), t ∈ l →
    (t.state = .Claimed ∨ t.state = .Running) →
    env.getContainer t.taskGuid = .notFound →
    env.completeTaskErr t.taskGuid = none →
    ((∀ u ∈ s, u.taskGuid = t.taskGuid →
        u.state = .Claimed ∨ u.state = .Running)
      ∨ (∀ u ∈ s, u.taskGuid = t.taskGuid →
        u.state = .Completed ∧ u.failed = true)) →
    (∃ u ∈ s, u.taskGuid = t.taskGuid) →
    ∀ u ∈ (reapList env l s).1, u.taskGuid = t.taskGuid →
      u.state = .Completed ∧ u.failed = true := by
  intro l
  induction l with
  | nil => intro s ht; exact absurd ht (List.not_mem_nil t)
  | cons v vs ih =>
    intro s htl hst hgc hce hI hE
    rcases List.mem_cons.mp htl with rfl | htl'
    · have hall : ∀ u ∈ reapStore env t s, u.taskGuid = t.taskGuid →
          u.state = .Completed ∧ u.failed = true := by
        rcases hI with hI | hP
        · exact reapStore_triggers env t s hst hgc hce hI hE
        · exact reapStore_preserves_completed env t t.taskGuid s hP
      simpa [reapList] using
        reapList_preserves_completed env t.taskGuid vs (reapStore env t s) hall
    · have hI' : (∀ u ∈ reapStore env v s, u.taskGuid = t.taskGuid →
          u.state = .Claimed ∨ u.state = .Running)
          ∨ (∀ u ∈ reapStore env v s, u.taskGuid = t.taskGuid →
          u.state = .Completed ∧ u.failed = true) := by
        rcases hI with hI | hP
        · exact reapStore_preI_step env v t.taskGuid s hI
        · exact Or.inr (reapStore_preserves_completed env v t.taskGuid s hP)
      have hE' := reapStore_preserves_exists env v t.taskGuid s hE
      simpa [reapList] using ih (reapStore env v s) htl' hst hgc hce hI' hE'

theorem reapList_calls_mem (env : ReaperEnv) (l s : List Task) (k : Call) :
    k ∈ (reapList env l s).2 ↔ ∃ v ∈ l, k ∈ reapCalls env v := by
  induction l generalizing s with
  | nil => simp [reapList]
  | cons v vs ih => simp [reapList, ih (reapStore env v s)]

/-- Claim C2, refuted as stated (reaper/task_reaper.go line 72): at a
concrete input with one Running task "g6" owned by local cell "a" whose
container the executor reports not found, the reaper tick issues no
complete_task call carrying the local cell identifier as an argument: the
store client invoked by this snapshot's reaper takes no cell-identifier
parameter at all. -/
theorem reaper_cell_argument_cex :
    Call.completeTask "g6" (some "a") true "task container no longer exists" "" ∉
      (reaperTick ⟨fun _ => .notFound, fun _ => none, none⟩ "a"
          [⟨"g6", "a", .Running, false, "", "", ""⟩]).2 := by
  decide

/-- Claim C2 as amended (reaper convergence, reaper/task_reaper.go lines
60 to 79): for every task in state Running (or Claimed) owned by the local
cell for which the executor's get_container returns the distinguished
not-found error and whose store and task-listing calls do not fail, one
reaper tick calls complete_task with the task's guid, failed = true,
failure_reason exactly "task container no longer exists" and empty result
(the snapshot's store client takes no cell-identifier argument), so that
after the tick every store record with that guid is Completed with
failed = true.  The last hypothesis is the instance of the guid
primary-key invariant: every record sharing the task's guid is also
Claimed or Running. -/
theorem reaper_convergence (env : ReaperEnv) (cid : String) (s : List Task)
    (t : Task) (hmem : t ∈ s) (hcell : t.cellID = cid)
    (hst : t.state = .Running ∨ t.state = .Claimed)
    (hgc : env.getContainer t.taskGuid = .notFound)
    (hce : env.completeTaskErr t.taskGuid = none)
    (hlist : env.tasksErr = none)
    (hkey : ∀ u ∈ s, u.taskGuid = t.taskGuid →
        u.state = .Claimed ∨ u.state = .Running) :
    Call.completeTask t.taskGuid none true "task container no longer exists" "" ∈
        (reaperTick env cid s).2
    ∧ ∀ u ∈ (reaperTick env cid s).1, u.taskGuid = t.taskGuid →
        u.state = .Completed ∧ u.failed = true := by
  have hst' : t.state = .Claimed ∨ t.state = .Running := hst.symm
  have htf : t ∈ getAllTasksByCellID cid s := by
    simp [getAllTasksByCellID, List.mem_filter, hmem, hcell]
  constructor
  · simp only [reaperTick, hlist]
    refine (reapList_calls_mem env _ s _).mpr ⟨t, htf, ?_⟩
    simp [reapCalls, hst', hgc]
  · simp only [reaperTick, hlist]
    exact reapList_completes env t _ s htf hst' hgc hce (Or.inl hkey)
      ⟨t, hmem, rfl⟩

/-- Witness for reaper_convergence at a concrete input: store with the
single Running task "g6" on cell "a", executor reporting not found. -/
theorem reaper_convergence_witness :
    Call.completeTask "g6" none true "task container no longer exists" "" ∈
        (reaperTick ⟨fun _ => .notFound, fun _ => none, none⟩ "a"
            [⟨"g6", "a", .Running, false, "", "", ""⟩]).2
    ∧ ((⟨"g6", "a", .Completed, true, "task container no longer exists", "", ""⟩ : Task).state
          = .Completed
       ∧ (⟨"g6", "a", .Completed, true, "task container no longer exists", "", ""⟩ : Task).failed
          = true) :=
  ⟨(reaper_convergence ⟨fun _ => .notFound, fun _ => none, none⟩ "a"
      [⟨"g6", "a", .Running, false, "", "", ""⟩]
      ⟨"g6", "a", .Running, false, "", "", ""⟩
      (by decide) rfl (Or.inl rfl) rfl rfl rfl (by decide)).1,
   (reaper_convergence ⟨fun _ => .notFound, fun _ => none, none⟩ "a"
      [⟨"g6", "a", .Running, false, "", "", ""⟩]
      ⟨"g6", "a", .Running, false, "", "", ""⟩
      (by decide) rfl (Or.inl rfl) rfl rfl rfl (by decide)).2
     ⟨"g6", "a", .Completed, true, "task container no longer exists", "", ""⟩
     (by decide) rfl⟩

/-- Claim C5 (reaper branching discipline, reaper/task_reaper.go lines 60
to 78): the loop body calls complete_task for a task exactly when the
task's state is Claimed or Running and get_container returns the
distinguished container-not-found error value (a separate constructor,
compared structurally: the second conjunct shows that any other error,
whatever its message string, leads to a skip with no store write and only
the get_container call issued); tasks in any other state are skipped
without querying the executor at all. -/
theorem reaper_branching (env : ReaperEnv) (t : Task) (s : List Task) :
    ((reapTask env t s).2.any Call.isCompleteTask = true ↔
       (t.state = .Claimed ∨ t.state = .Running) ∧
         env.getContainer t.taskGuid = .notFound)
    ∧ (∀ m, env.getContainer t.taskGuid = .otherErr m →
        (t.state = .Claimed ∨ t.state = .Running) →
        reapTask env t s = (s, [.getContainer t.taskGuid]))
    ∧ (¬(t.state = .Claimed ∨ t.state = .Running) →
        reapTask env t s = (s, [])) := by
  by_cases hst : t.state = .Claimed ∨ t.state = .Running
  · rcases hgc : env.getContainer t.taskGuid with _ | _ | m <;>
      simp [reapTask, reapCalls, reapStore, hst, hgc, Call.isCompleteTask]
  · simp [reapTask, reapCalls, reapStore, hst]

/-- Witness for reaper_branching at concrete inputs: a Running task whose
container is not found produces a complete_task call; a Resolving task is
skipped entirely. -/
theorem reaper_branching_witness :
    (reapTask ⟨fun _ => .notFound, fun _ => none, none⟩
        ⟨"g6", "a", .Running, false, "", "", ""⟩ []).2.any Call.isCompleteTask = true
    ∧ reapTask ⟨fun _ => .notFound, fun _ => none, none⟩
        ⟨"g6", "a", .Resolving, false, "", "", ""⟩ [] = ([], []) :=
  ⟨(reaper_branching ⟨fun _ => .notFound, fun _ => none, none⟩
      ⟨"g6", "a", .Running, false, "", "", ""⟩ []).1.mpr ⟨Or.inr rfl, rfl⟩,
   (reaper_branching ⟨fun _ => .notFound, fun _ => none, none⟩
      ⟨"g6", "a", .Resolving, false, "", "", ""⟩ []).2.2 (by decide)⟩

/-- Claim C8 (reaper error containment, reaper/task_reaper.go lines 54 to
78): when get_all_tasks_by_cell_id fails, the tick ends immediately with
the store unchanged and no calls at all, in particular no complete_task;
and whatever per-task complete_task failures the environment injects,
every Claimed-or-Running task of the tick's snapshot still gets its
get_container query, so one task's store error never aborts the
iteration.  Both components of the tick are total functions, so no error
escapes the tick. -/
theorem reaper_error_containment (env : ReaperEnv) (cid : String)
    (s : List Task) :
    (∀ e, env.tasksErr = some e → reaperTick env cid s = (s, []))
    ∧ (env.tasksErr = none →
       ∀ t ∈ getAllTasksByCellID cid s,
         (t.state = .Claimed ∨ t.state = .Running) →
         Call.getContainer t.taskGuid ∈ (reaperTick env cid s).2) := by
  constructor
  · intro e he
    simp [reaperTick, he]
  · intro hn t htf hst
    simp only [reaperTick, hn]
    refine (reapList_calls_mem env _ s _).mpr ⟨t, htf, ?_⟩
    rcases hgc : env.getContainer t.taskGuid with _ | _ | m <;>
      simp [reapCalls, hst, hgc]

/-- Witness for reaper_error_containment at concrete inputs: a failing
task listing leaves the store untouched with no calls; with a healthy
listing but a store that rejects every complete, the task's container is
still queried. -/
theorem reaper_error_containment_witness :
    reaperTick ⟨fun _ => .notFound, fun _ => none, some "boom"⟩ "a"
        [⟨"g6", "a", .Running, false, "", "", ""⟩] =
      ([⟨"g6", "a", .Running, false, "", "", ""⟩], [])
    ∧ Call.getContainer "g6" ∈
        (reaperTick ⟨fun _ => .notFound, fun _ => some "eek", none⟩ "a"
            [⟨"g6", "a", .Running, false, "", "", ""⟩]).2 :=
  ⟨(reaper_error_containment ⟨fun _ => .notFound, fun _ => none, some "boom"⟩
      "a" [⟨"g6", "a", .Running, false, "", "", ""⟩]).1 "boom" rfl,
   (reaper_error_containment ⟨fun _ => .notFound, fun _ => some "eek", none⟩
      "a" [⟨"g6", "a", .Running, false, "", "", ""⟩]).2 rfl
     ⟨"g6", "a", .Running, false, "", "", ""⟩ (by decide) (Or.inr rfl)⟩

/-- Claim C9 (reaper shutdown, reaper/task_reaper.go lines 48 to 86): the
signal is consulted only at the select between iterations, so over any
serialization of events in which the first signal arrives after a prefix
of ticks, Run returns cleanly (the Go function returns nil) at that
boundary: the store is exactly the one produced by the ticks before the
signal, the calls are exactly those ticks' calls, no call is initiated
after the signal is taken, and later events are never processed. -/
theorem reaper_shutdown (cid : String) (pre post : List ReaperEvent)
    (s : List Task) (hpre : ∀ e ∈ pre, e.isSignal = false) :
    reaperRun cid (pre ++ .signal :: post) s =
      ((reaperRun cid pre s).1, (reaperRun cid pre s).2.1, true) := by
  induction pre generalizing s with
  | nil => simp [reaperRun]
  | cons e es ih =>
    cases e with
    | tick env =>
      have hes : ∀ x ∈ es, x.isSignal = false := fun x hx =>
        hpre x (List.mem_cons_of_mem _ hx)
      simp [reaperRun, ih (reaperTick env cid s).1 hes]
    | signal =>
      exact absurd (hpre _ (List.mem_cons_self _ _)) (by simp [ReaperEvent.isSignal])

/-- Witness for reaper_shutdown at a concrete input: one tick, then a
signal, then a further tick that is never processed. -/
theorem reaper_shutdown_witness :
    reaperRun "a" [.tick ⟨fun _ => .found, fun _ => none, none⟩, .signal,
        .tick ⟨fun _ => .notFound, fun _ => none, none⟩]
        [⟨"g6", "a", .Running, false, "", "", ""⟩] =
      ((reaperRun "a" [.tick ⟨fun _ => .found, fun _ => none, none⟩]
          [⟨"g6", "a", .Running, false, "", "", ""⟩]).1,
       (reaperRun "a" [.tick ⟨fun _ => .found, fun _ => none, none⟩]
          [⟨"g6", "a", .Running, false, "", "", ""⟩]).2.1, true) :=
  reaper_shutdown "a" [.tick ⟨fun _ => .found, fun _ => none, none⟩]
    [.tick ⟨fun _ => .notFound, fun _ => none, none⟩]
    [⟨"g6", "a", .Running, false, "", "", ""⟩] (by decide)

/-- Claim C10 (the reaper never mutates the executor,
reaper/task_reaper.go lines 43 to 87): every call a tick issues is either
the read-only get_container query or a complete_task store write; in
particular the reaper never calls run_container, stop_container or
delete_container, and complete_task is its only store mutation. -/
theorem reaper_frame (env : ReaperEnv) (cid : String) (s : List Task) :
    ∀ k ∈ (reaperTick env cid s).2,
      (Call.isGetContainer k || Call.isCompleteTask k) = true := by
  intro k hk
  rcases he : env.tasksErr with _ | e
  · simp only [reaperTick, he] at hk
    obtain ⟨v, _, hkv⟩ := (reapList_calls_mem env _ s k).mp hk
    by_cases hst : v.state = .Claimed ∨ v.state = .Running
    · rcases hgc : env.getContainer v.taskGuid with _ | _ | m <;>
        simp only [reapCalls, hst, if_pos, hgc] at hkv <;>
        rcases List.mem_cons.mp hkv with rfl | h <;>
        simp_all [Call.isGetContainer, Call.isCompleteTask]
    · simp [reapCalls, hst] at hkv
  · simp [reaperTick, he] at hk

/-- Witness for reaper_frame at a concrete input: the get_container call
issued for task "g6" is one of the two permitted call kinds. -/
theorem reaper_frame_witness :
    (Call.isGetContainer (Call.getContainer "g6")
      || Call.isCompleteTask (Call.getContainer "g6")) = true :=
  reaper_frame ⟨fun _ => .found, fun _ => none, none⟩ "a"
    [⟨"g6", "a", .Running, false, "", "", ""⟩] (Call.getContainer "g6")
    (by decide)

end CellRep
